import Mathlib

/-!
Verification of the retrieval-and-resilient-generation pipeline of a small
RAG chatbot backend (Node.js).  The JavaScript sources are embedded shallowly:
JS strings become `List Char` (the inputs of interest are BMP-only, where
UTF-16 code units and Unicode scalar values coincide, so `.length`, `.slice`
and character indexing agree), the handful of concrete regular expressions
used by the code are implemented as dedicated scanning functions with
JavaScript `String.prototype.replace`/`split`/`match` semantics, and the
asynchronous orchestration is modelled by explicit state passing with the
outcomes of remote calls supplied as oracle parameters.
-/

namespace Chatbot

/-- JS strings are sequences of (BMP) characters. -/
abbrev Str := List Char

/-- ASCII lower-casing, as `String.prototype.toLowerCase` acts on the
character ranges occurring in this code base (CJK characters are unaffected). -/
def asciiLower (c : Char) : Char :=
  if 'A' ≤ c ∧ c ≤ 'Z' then Char.ofNat (c.toNat + 32) else c

/-- Lower-case a whole string. -/
def lowerStr (s : Str) : Str := s.map asciiLower

/-- Case-insensitive character comparison (the `i` regex flag). -/
def ciEq (a b : Char) : Bool := asciiLower a = asciiLower b

/-- The character set matched by the JS regex class `\s`
(ECMAScript WhiteSpace and LineTerminator characters). -/
def isJsWs (c : Char) : Bool :=
  let n := c.toNat
  n = 32 ∨ (9 ≤ n ∧ n ≤ 13) ∨ n = 160 ∨ n = 0x1680 ∨
    (0x2000 ≤ n ∧ n ≤ 0x200A) ∨ n = 0x2028 ∨ n = 0x2029 ∨
    n = 0x202F ∨ n = 0x205F ∨ n = 0x3000 ∨ n = 0xFEFF

/-- ECMAScript LineTerminator characters (used by the `m` regex flag). -/
def isLineTerm (c : Char) : Bool :=
  c.toNat = 10 ∨ c.toNat = 13 ∨ c.toNat = 0x2028 ∨ c.toNat = 0x2029

/-- JS `String.prototype.trim`: strip leading and trailing whitespace. -/
def jsTrim (s : Str) : Str :=
  ((s.dropWhile isJsWs).reverse.dropWhile isJsWs).reverse

/-- Does `pre` occur at the start of `s`? -/
def startsWith : Str → Str → Bool
  | [], _ => true
  | _ :: _, [] => false
  | p :: ps, c :: cs => p = c ∧ startsWith ps cs

/-- Substring containment, `String.prototype.includes`. -/
def containsSub (needle : Str) : Str → Bool
  | [] => startsWith needle []
  | c :: rest => startsWith needle (c :: rest) ∨ containsSub needle rest

/-- Scanner for `countOccur`.  The `Nat` argument counts characters still to
be skipped because they belong to the previous match (this makes the scan
structurally recursive; semantically it is the usual leftmost
non-overlapping scan of a global regex). -/
def countOccurGo (w : Str) : Nat → Str → Nat
  | _, [] => 0
  | k + 1, _ :: rest => countOccurGo w k rest
  | 0, c :: rest =>
    if startsWith w (c :: rest) ∧ w ≠ [] then
      1 + countOccurGo w (w.length - 1) rest
    else
      countOccurGo w 0 rest

/-- Number of non-overlapping, leftmost occurrences of the (regex escaped,
hence literal) pattern `w` in `s`: the length of
`s.match(new RegExp(escaped, g))`. -/
def countOccur (w : Str) (s : Str) : Nat := countOccurGo w 0 s

/-- JS `String.prototype.indexOf`: index of the first occurrence, `none` when the
JS call would return `-1`. -/
def idxOf (w : Str) : Str → Option Nat
  | [] => if startsWith w [] then some 0 else none
  | c :: rest =>
    if startsWith w (c :: rest) then some 0
    else (idxOf w rest).map (· + 1)

/-- A scanning matcher: given the previously consumed character (for the
multiline `^` anchor) and the rest of the input, return the length of a match
starting here, if any. -/
abbrev Matcher := Option Char → Str → Option Nat

/-- Scanner for `jsReplace`.  The `Nat` argument counts characters still to
be skipped because they belong to the previous match; `prev` is the character
just before the scan position in the original string (for anchored
matchers). -/
def jsReplaceGo (m : Matcher) (repl : Str) : Option Char → Nat → Str → Str
  | _, _, [] => []
  | _, k + 1, c :: rest => jsReplaceGo m repl (some c) k rest
  | prev, 0, c :: rest =>
    match m prev (c :: rest) with
    | some (n + 1) => repl ++ jsReplaceGo m repl (some c) n rest
    | _ => c :: jsReplaceGo m repl (some c) 0 rest

/-- JS `String.prototype.replace` with a global regex whose matches are always
non-empty (every pattern in this code base contains a mandatory literal):
scan left to right, replace each leftmost match, continue after it. -/
def jsReplace (m : Matcher) (repl : Str) (s : Str) : Str :=
  jsReplaceGo m repl none 0 s

/-- Scanner for `jsSplit`; the `Nat` argument skips the rest of a matched
separator. -/
def jsSplitGo (m : Str → Option Nat) : Str → Nat → Str → List Str
  | cur, _, [] => [cur.reverse]
  | cur, k + 1, _ :: rest => jsSplitGo m cur k rest
  | cur, 0, c :: rest =>
    match m (c :: rest) with
    | some (n + 1) => cur.reverse :: jsSplitGo m [] n rest
    | _ => jsSplitGo m (c :: cur) 0 rest

/-- JS `String.prototype.split` driven by a matcher for a separator regex
whose matches are non-empty.  Empty pieces at either end are kept, exactly as
in JS. -/
def jsSplit (m : Str → Option Nat) (s : Str) : List Str :=
  jsSplitGo m [] 0 s

/-- Matcher for a run of `\s+`. -/
def wsRunMatch (s : Str) : Option Nat :=
  match (s.takeWhile isJsWs).length with
  | 0 => none
  | n + 1 => some (n + 1)

/-- Split on `/\s+/` (JS keeps empty pieces at the ends). -/
def jsSplitWs (s : Str) : List Str := jsSplit wsRunMatch s

/-!
## Relevance scorer — `calculateRelevanceScore` (utils/textProcessor.js)
-/

/-- The stop-word list of `calculateRelevanceScore`, in source order. -/
def stopWords : List Str :=
  ["什麼".data, "是什麼".data, "如何".data, "怎樣".data, "嗎".data, "呢".data,
   "的".data, "了".data, "是".data, "有".data, "在".data, "要".data,
   "可以".data, "能".data, "會".data, "什麼是".data, "什麼時候".data,
   "哪裡".data, "哪個".data]

/-- Matcher for a case-insensitive literal (the stop words contain no regex
metacharacters, so `new RegExp(stopWord, gi)` matches them literally). -/
def litMatch (lit : Str) (s : Str) : Option Nat :=
  if (lit.zip s).all (fun p => ciEq p.1 p.2) ∧ lit.length ≤ s.length then
    some lit.length
  else none

/-- Model of `cleanQuery.replace(new RegExp(stopWord, gi), ' ')` for one stop word. -/
def replaceStopWord (w : Str) (s : Str) : Str :=
  jsReplace (fun _ t => litMatch w t) [' '] s

/-- The punctuation-or-whitespace class `[，。！？、；：\s]` used by the
tokenizer of the scorer. -/
def isPunctWs (c : Char) : Bool :=
  c = '，' ∨ c = '。' ∨ c = '！' ∨ c = '？' ∨ c = '、' ∨ c = '；' ∨ c = '：' ∨
    isJsWs c

/-- Matcher for `/[，。！？、；：\s]+/`. -/
def punctRunMatch (s : Str) : Option Nat :=
  match (s.takeWhile isPunctWs).length with
  | 0 => none
  | n + 1 => some (n + 1)

/-- Model of `.replace(/[，。！？、；：\s]+/g, ' ')`. -/
def replacePunct (s : Str) : Str :=
  jsReplace (fun _ t => punctRunMatch t) [' '] s

/-- The token list the scorer extracts from a query: lower-case, strip stop
words, split on punctuation and whitespace, keep words of length `> 1`; when
nothing survives, re-tokenize the original lower-cased query keeping words of
length `> 0`. -/
def queryTokens (query : Str) : List Str :=
  let queryLower := lowerStr query
  let cleanQuery := stopWords.foldl (fun acc w => replaceStopWord w acc) queryLower
  let queryWords := (jsSplitWs (replacePunct cleanQuery)).filter (fun w => w.length > 1)
  if queryWords.isEmpty then
    (jsSplitWs (replacePunct queryLower)).filter (fun w => w.length > 0)
  else queryWords

/-- Model of `calculateRelevanceScore(query, text)`.  For each token: number of
case-insensitive literal occurrences times 2, plus 3 whenever
`textLower.indexOf(word) < 100` — which in JS is also true when `indexOf`
returns `-1`, i.e. when the token does not occur at all. -/
def calculateRelevanceScore (query text : Str) : Nat :=
  let textLower := lowerStr text
  (queryTokens query).foldl
    (fun score w =>
      if w.length > 0 then
        let occ := countOccur w textLower
        let score := score + occ * 2
        match idxOf w textLower with
        | some i => if i < 100 then score + 3 else score
        | none => score + 3
      else score)
    0

example : calculateRelevanceScore ("zz".data) ("aaaa".data) = 3 := by decide

example : calculateRelevanceScore ("ab cd".data) ("xxabyyabzz".data) = 10 := by
  decide

/-!
## Chunks and the retriever — `chunkText`, `retrieveRelevantChunks`
-/

/-- A knowledge-base chunk: `{ text, index }`. -/
structure Chunk where
  text : Str
  index : Nat
deriving DecidableEq

/-- A scored chunk: `{ ...chunk, score }`. -/
structure ScoredChunk where
  text : Str
  index : Nat
  score : Nat
deriving DecidableEq

/-- Model of `chunks.map(chunk => ({ ...chunk, score: calculateRelevanceScore(query,
chunk.text) }))`. -/
def scoredChunks (query : Str) (chunks : List Chunk) : List ScoredChunk :=
  chunks.map fun c => ⟨c.text, c.index, calculateRelevanceScore query c.text⟩

/-- Insert into a list sorted by descending score, after every element of
score `≥` its own (the placement a stable sort gives to an element coming
before the others in the input). -/
def insertDesc (x : ScoredChunk) : List ScoredChunk → List ScoredChunk
  | [] => [x]
  | y :: ys => if x.score < y.score then y :: insertDesc x ys else x :: y :: ys

/-- Model of `.sort((a, b) => b.score - a.score)`: `Array.prototype.sort` is stable
and the comparator induces the total preorder "higher score first", so the
result is the unique stable descending reordering, here computed by
insertion. -/
def sortDesc (l : List ScoredChunk) : List ScoredChunk :=
  l.foldr insertDesc []

/-- Model of `retrieveRelevantChunks(query, chunks, topK = 3)`: score, sort by
descending score, take the first `topK`, drop entries with score `≤ 0`. -/
def retrieveRelevantChunks (query : Str) (chunks : List Chunk)
    (topK : Nat := 3) : List ScoredChunk :=
  ((sortDesc (scoredChunks query chunks)).take topK).filter fun c => 0 < c.score

example :
    retrieveRelevantChunks ("ab".data) [⟨"xxab".data, 0⟩, ⟨"qq".data, 1⟩] 5
      = [⟨"xxab".data, 0, 5⟩, ⟨"qq".data, 1, 3⟩] := by decide

/-- C2.  The relevance score is NOT "occurrences × 2 plus a bonus only for
tokens that occur early": the JS bonus test `textLower.indexOf(word) < 100`
is also satisfied by the not-found result `-1` of `indexOf`, so a token with zero
occurrences contributes 3, not 0.  Query "zz" has the single token "zz",
which never occurs in "aaaa", yet the score is 3 where the claim requires
0.  This contradicts the comment in the code itself, which grants the bonus when the
keyword appears in the title or at the start. -/
theorem score_bonus_granted_to_absent_token :
    calculateRelevanceScore ("zz".data) ("aaaa".data) = 3 ∧
      countOccur ("zz".data) (lowerStr ("aaaa".data)) = 0 := by decide

/-- The function `insertDesc` inserts, so membership is membership in the input plus the
new element. -/
theorem mem_insertDesc {z x : ScoredChunk} {l : List ScoredChunk} :
    z ∈ insertDesc x l ↔ z = x ∨ z ∈ l := by
  induction l with
  | nil => simp [insertDesc]
  | cons y ys ih =>
    by_cases hxy : x.score < y.score
    · simp [insertDesc, hxy, ih]
      tauto
    · simp [insertDesc, hxy, ih]

/-- Elements preceding the insertion point of `insertDesc` have strictly
larger scores, so inserting never disturbs the relative order of elements of
any fixed score, and an inserted element goes in front of its score class. -/
theorem insertDesc_filter (x : ScoredChunk) (s : Nat) (l : List ScoredChunk) :
    (insertDesc x l).filter (fun c => c.score = s)
      = if x.score = s then x :: l.filter (fun c => c.score = s)
        else l.filter (fun c => c.score = s) := by
  induction l with
  | nil =>
    by_cases hxs : x.score = s <;> simp [insertDesc, List.filter_cons, hxs]
  | cons y ys ih =>
    by_cases hxy : x.score < y.score
    · by_cases hxs : x.score = s
      · have hys : ¬ y.score = s := by omega
        simp only [insertDesc, if_pos hxy, List.filter_cons, ih, if_pos hxs]
        simp [hys]
      · simp only [insertDesc, if_pos hxy, List.filter_cons, ih, if_neg hxs]
    · simp only [insertDesc, if_neg hxy, List.filter_cons]
      by_cases hxs : x.score = s <;> simp [hxs]

/-- The function `insertDesc` preserves "sorted by descending score". -/
theorem insertDesc_pairwise (x : ScoredChunk) (l : List ScoredChunk)
    (h : l.Pairwise (fun a b => b.score ≤ a.score)) :
    (insertDesc x l).Pairwise (fun a b => b.score ≤ a.score) := by
  induction l with
  | nil => simp [insertDesc]
  | cons y ys ih =>
    rw [List.pairwise_cons] at h
    by_cases hxy : x.score < y.score
    · simp only [insertDesc, if_pos hxy]
      rw [List.pairwise_cons]
      refine ⟨fun z hz => ?_, ih h.2⟩
      rcases mem_insertDesc.mp hz with rfl | hzys
      · omega
      · exact h.1 z hzys
    · simp only [insertDesc, if_neg hxy]
      rw [List.pairwise_cons]
      refine ⟨fun z hz => ?_, List.pairwise_cons.mpr h⟩
      rcases List.mem_cons.mp hz with rfl | hzys
      · omega
      · have := h.1 z hzys
        omega

/-- The function `sortDesc` sorts by descending score. -/
theorem sortDesc_pairwise (l : List ScoredChunk) :
    (sortDesc l).Pairwise (fun a b => b.score ≤ a.score) := by
  induction l with
  | nil => simp [sortDesc]
  | cons x xs ih => exact insertDesc_pairwise x _ ih

/-- Stability of `sortDesc`: within each score class the input order is
preserved. -/
theorem sortDesc_filter (s : Nat) (l : List ScoredChunk) :
    (sortDesc l).filter (fun c => c.score = s)
      = l.filter (fun c => c.score = s) := by
  induction l with
  | nil => rfl
  | cons x xs ih =>
    show (insertDesc x (sortDesc xs)).filter _ = _
    rw [insertDesc_filter, List.filter_cons, ih]
    by_cases hxs : x.score = s <;> simp [hxs]

/-- C4 counterexample.  The default `topK` of `retrieveRelevantChunks` is 3,
not 5: on four chunks that all score positively, the default call returns 3
entries while an explicit `topK = 5` returns all 4. -/
theorem retrieve_default_topK_is_three_cex :
    retrieveRelevantChunks ("ab".data)
        [⟨"ab".data, 0⟩, ⟨"ab".data, 1⟩, ⟨"ab".data, 2⟩, ⟨"ab".data, 3⟩]
      ≠ retrieveRelevantChunks ("ab".data)
        [⟨"ab".data, 0⟩, ⟨"ab".data, 1⟩, ⟨"ab".data, 2⟩, ⟨"ab".data, 3⟩] 5 ∧
    (retrieveRelevantChunks ("ab".data)
        [⟨"ab".data, 0⟩, ⟨"ab".data, 1⟩, ⟨"ab".data, 2⟩, ⟨"ab".data, 3⟩]).length
      = 3 ∧
    (retrieveRelevantChunks ("ab".data)
        [⟨"ab".data, 0⟩, ⟨"ab".data, 1⟩, ⟨"ab".data, 2⟩, ⟨"ab".data, 3⟩]
        5).length = 4 := by decide

/-- C4 (amended: the default `topK` is 3).  `retrieveRelevantChunks` returns
a sequence sorted by descending score, of length at most `topK`, with no
entry of score `≤ 0`; it is a function of its inputs (hence deterministic), a
sublist of the full stable descending sort, and that sort preserves the input
order inside every score class (ties are broken by original position); the
default `topK` is 3. -/
theorem retrieve_contract (query : Str) (chunks : List Chunk) (topK : Nat) :
    (retrieveRelevantChunks query chunks topK).Pairwise
        (fun a b => b.score ≤ a.score) ∧
    (retrieveRelevantChunks query chunks topK).length ≤ topK ∧
    (∀ c ∈ retrieveRelevantChunks query chunks topK, 0 < c.score) ∧
    (retrieveRelevantChunks query chunks topK).Sublist
        (sortDesc (scoredChunks query chunks)) ∧
    (∀ s, (sortDesc (scoredChunks query chunks)).filter (fun c => c.score = s)
        = (scoredChunks query chunks).filter (fun c => c.score = s)) ∧
    retrieveRelevantChunks query chunks = retrieveRelevantChunks query chunks 3 := by
  refine ⟨?_, ?_, ?_, ?_, fun s => sortDesc_filter s _, rfl⟩
  · exact List.Pairwise.sublist
      ((List.filter_sublist _).trans (List.take_sublist _ _))
      (sortDesc_pairwise _)
  · exact le_trans (List.length_filter_le _ _) (List.length_take_le _ _)
  · intro c hc
    have := (List.mem_filter.mp hc).2
    exact of_decide_eq_true this
  · exact (List.filter_sublist _).trans (List.take_sublist _ _)

/-!
## Chunker — `chunkText` (utils/textProcessor.js)
-/

/-- Last index holding a newline, if any. -/
def lastIdxNl : Str → Option Nat
  | [] => none
  | c :: rest =>
    match lastIdxNl rest with
    | some j => some (j + 1)
    | none => if c = '\n' then some 0 else none

/-- Matcher for the paragraph separator `/\n\s*\n/`: a newline, a greedy
(backtracking) run of whitespace, and a final newline — equivalently, a
newline followed by at least one further newline inside the adjacent
whitespace run, matched up to the last such newline. -/
def paraMatch : Str → Option Nat
  | [] => none
  | c :: rest =>
    if c = '\n' then
      match lastIdxNl (rest.takeWhile isJsWs) with
      | some j => some (j + 2)
      | none => none
    else none

/-- The sentence terminators of `/(?<=[。！？\n])/`. -/
def isSentenceEnd (c : Char) : Bool :=
  c = '。' ∨ c = '！' ∨ c = '？' ∨ c = '\n'

/-- Lookbehind split on sentence terminators: a piece ends after each
terminator; a zero-width match at the very end of the string produces no
trailing empty piece (ECMAScript split semantics). -/
def sentenceGo (cur : Str) : Str → List Str
  | [] => [cur.reverse]
  | c :: rest =>
    if isSentenceEnd c ∧ rest ≠ [] then
      (c :: cur).reverse :: sentenceGo [] rest
    else sentenceGo (c :: cur) rest

/-- Model of `paragraph.split(/(?<=[。！？\n])/)`. -/
def sentencePieces (s : Str) : List Str := sentenceGo [] s

/-- The sentence-packing loop of `chunkText`: greedily extend
`currentChunk` while it stays within `chunkSize`, emitting the trimmed
accumulator (when non-empty, i.e. truthy) before starting over. -/
def packGo (chunkSize : Nat) (cur : Str) : List Str → List Str
  | [] => if cur ≠ [] then [jsTrim cur] else []
  | s :: ss =>
    if (cur ++ s).length ≤ chunkSize then packGo chunkSize (cur ++ s) ss
    else (if cur ≠ [] then [jsTrim cur] else []) ++ packGo chunkSize s ss

/-- The texts pushed by the paragraph loop of `chunkText`, in push order
(each pushed text is already trimmed; empty texts are pushed too and only
filtered out at the very end). -/
def emittedTexts (text : Str) (chunkSize : Nat) : List Str :=
  (jsSplit paraMatch text).foldl
    (fun acc p =>
      if p.length ≤ chunkSize then acc ++ [jsTrim p]
      else acc ++ packGo chunkSize [] (sentencePieces p))
    []

/-- The fixed-width slicing fallback `for (let i = 0; i < text.length; i +=
chunkSize - overlap)`.  The fuel argument only serves structural
termination: when `overlap < chunkSize` the loop performs at most
`text.length` iterations, so starting with fuel `text.length` reproduces the
JS loop exactly (for `overlap ≥ chunkSize` the JS loop would not
terminate). -/
def sliceGo (text : Str) (chunkSize step : Nat) : Nat → Nat → List Str
  | 0, _ => []
  | fuel + 1, i =>
    if i < text.length then
      jsTrim ((text.drop i).take chunkSize) ::
        sliceGo text chunkSize step fuel (i + step)
    else []

/-- The `text.slice(i, i + chunkSize)` pieces of the fallback path. -/
def sliceTexts (text : Str) (chunkSize overlap : Nat) : List Str :=
  sliceGo text chunkSize (chunkSize - overlap) text.length 0

/-- All texts `chunkText` pushes (paragraph loop, or, when that pushed
nothing and the text is long, the slicing fallback), in push order.  Each
push consumed one value of the `index++` counter, including pushes of
empty (later discarded) texts. -/
def emittedAll (text : Str) (chunkSize overlap : Nat) : List Str :=
  let emitted := emittedTexts text chunkSize
  if emitted.isEmpty ∧ text.length > chunkSize then
    sliceTexts text chunkSize overlap
  else emitted

/-- Model of `chunkText(text, chunkSize = 1000, overlap = 200)`: push chunks with
consecutive indexes, then `filter(chunk => chunk.text.length > 0)`. -/
def chunkText (text : Str) (chunkSize : Nat := 1000) (overlap : Nat := 200) :
    List Chunk :=
  ((emittedAll text chunkSize overlap).enum.map
      fun p => Chunk.mk p.2 p.1).filter fun c => c.text.length > 0

example : chunkText ("hello".data) = [⟨"hello".data, 0⟩] := by decide

example :
    chunkText ("ab\n\n \n\ncd".data) = [⟨"ab".data, 0⟩, ⟨"cd".data, 1⟩] := by
  decide

/-- C9 counterexample.  Indexes are assigned before empty chunks are
discarded, so the returned sequence can skip indexes: on `" \n\na"` the
first paragraph `" "` trims to the empty string, consuming index 0, and the
only returned chunk carries index 1 — the 0th returned chunk does not have
index 0. -/
theorem chunkText_index_gap_cex :
    chunkText (" \n\na".data) = [⟨"a".data, 1⟩] ∧
    (chunkText (" \n\na".data)).map Chunk.index
      ≠ List.range (chunkText (" \n\na".data)).length := by decide

/-- Every element of `enumFrom n l` has first component at least `n`. -/
theorem enumFrom_fst_ge (n : Nat) (l : List α) :
    ∀ p ∈ List.enumFrom n l, n ≤ p.1 := by
  induction l generalizing n with
  | nil => intro p hp; cases hp
  | cons x xs ih =>
    intro p hp
    rcases List.mem_cons.mp hp with rfl | hp'
    · exact Nat.le_refl n
    · exact Nat.le_of_succ_le (ih (n + 1) p hp')

/-- The first components of `enumFrom` are strictly increasing. -/
theorem pairwise_fst_lt_enumFrom (n : Nat) (l : List α) :
    (List.enumFrom n l).Pairwise fun a b => a.1 < b.1 := by
  induction l generalizing n with
  | nil => exact List.Pairwise.nil
  | cons x xs ih =>
    rw [List.enumFrom_cons, List.pairwise_cons]
    exact ⟨fun p hp => Nat.lt_of_succ_le (enumFrom_fst_ge (n + 1) xs p hp),
      ih (n + 1)⟩

/-- The first components of `enum` are strictly increasing. -/
theorem pairwise_fst_lt_enum (l : List α) :
    l.enum.Pairwise fun a b => a.1 < b.1 :=
  pairwise_fst_lt_enumFrom 0 l

/-- C9 (amended).  Indexes are assigned in emission order starting at 0
across all pushed chunks, and only afterwards are empty chunks discarded:
the returned indexes are strictly increasing and form a sublist of
`0, 1, …`, but may skip the positions of discarded empty chunks; when no
pushed chunk trims to the empty string, the i-th returned chunk has index i.
(The hypothesis `overlap < chunkSize` confines the statement to the inputs
on which the JS slicing fallback terminates.) -/
theorem chunkText_index_mono (text : Str) (chunkSize overlap : Nat)
    (_hov : overlap < chunkSize) :
    (chunkText text chunkSize overlap).Pairwise
        (fun a b => a.index < b.index) ∧
    ((chunkText text chunkSize overlap).map Chunk.index).Sublist
        (List.range (emittedAll text chunkSize overlap).length) ∧
    ((∀ t ∈ emittedAll text chunkSize overlap, t ≠ []) →
      (chunkText text chunkSize overlap).map Chunk.index
        = List.range (emittedAll text chunkSize overlap).length) := by
  have hix : (List.map (Chunk.index ∘ fun p : Nat × Str => Chunk.mk p.2 p.1)
      (emittedAll text chunkSize overlap).enum)
        = List.range (emittedAll text chunkSize overlap).length := by
    rw [show (Chunk.index ∘ fun p : Nat × Str => Chunk.mk p.2 p.1)
        = Prod.fst from rfl]
    exact List.enum_map_fst _
  refine ⟨?_, ?_, ?_⟩
  · apply List.Pairwise.sublist (List.filter_sublist _)
    rw [List.pairwise_map]
    exact pairwise_fst_lt_enum _
  · have hsub : ((chunkText text chunkSize overlap).map Chunk.index).Sublist
        (((emittedAll text chunkSize overlap).enum.map
          fun p => Chunk.mk p.2 p.1).map Chunk.index) :=
      List.Sublist.map _ (List.filter_sublist _)
    rw [List.map_map, hix] at hsub
    exact hsub
  · intro hne
    have hfil : (((emittedAll text chunkSize overlap).enum.map
        fun p => Chunk.mk p.2 p.1).filter fun c => c.text.length > 0)
          = ((emittedAll text chunkSize overlap).enum.map
            fun p => Chunk.mk p.2 p.1) := by
      apply List.filter_eq_self.mpr
      intro c hc
      rcases List.mem_map.mp hc with ⟨p, hp, rfl⟩
      have hsnd : p.2 ∈ emittedAll text chunkSize overlap := by
        have := List.mem_map_of_mem Prod.snd hp
        rwa [List.enum_map_snd] at this
      have := hne p.2 hsnd
      simp only [decide_eq_true_eq]
      cases hq : p.2 with
      | nil => exact absurd hq this
      | cons a as => simp
    show ((((emittedAll text chunkSize overlap).enum.map
        fun p => Chunk.mk p.2 p.1).filter fun c => c.text.length > 0).map
          Chunk.index) = _
    rw [hfil, List.map_map, hix]

/-- Witness for `chunkText_index_mono` at a concrete input. -/
theorem chunkText_index_mono_witness :
    (chunkText ("ab\n\n \n\ncd".data) 1000 200).Pairwise
        (fun a b => a.index < b.index) :=
  (chunkText_index_mono ("ab\n\n \n\ncd".data) 1000 200 (by decide)).1

/-!
## Stream sanitizer — `sanitizeAnswer`, `generateAnswerStream`
(services/gemini.js)

The eight replacement passes of `sanitizeAnswer` use concrete regexes made
of case-insensitive literals, whitespace classes and optional brackets; they
are assembled here from small consuming combinators.
-/

/-- A consuming pattern: number of characters matched plus the rest. -/
abbrev PM := Str → Option (Nat × Str)

/-- Case-insensitive literal. -/
def pLitCI (lit : Str) : PM := fun s =>
  if (lit.zip s).all (fun p => ciEq p.1 p.2) ∧ lit.length ≤ s.length then
    some (lit.length, s.drop lit.length)
  else none

/-- Greedy `cls*`.  In every pattern below the character class is disjoint
from the character that must follow, so greedy matching needs no
backtracking. -/
def pClassStar (cls : Char → Bool) : PM := fun s =>
  let n := (s.takeWhile cls).length
  some (n, s.drop n)

/-- Greedy `cls+`. -/
def pClassPlus (cls : Char → Bool) : PM := fun s =>
  match (s.takeWhile cls).length with
  | 0 => none
  | n + 1 => some (n + 1, s.drop (n + 1))

/-- Optional single character from a set. -/
def pOptChar (cs : List Char) : PM := fun s =>
  match s with
  | c :: rest => if c ∈ cs then some (1, rest) else some (0, c :: rest)
  | [] => some (0, [])

/-- Sequencing of consuming patterns. -/
def pseq (p q : PM) : PM := fun s =>
  match p s with
  | some (n, r) =>
    match q r with
    | some (m, r2) => some (n + m, r2)
    | none => none
  | none => none

/-- The empty pattern. -/
def pEmpty : PM := fun s => some (0, s)

/-- Sequence a list of consuming patterns. -/
def pseqs (ps : List PM) : PM := ps.foldl pseq pEmpty

/-- Forget the rest, keep the matched length (an unanchored `Matcher`). -/
def toMatcher (p : PM) : Matcher := fun _ s => (p s).map Prod.fst

/-- The reserved no-match marker. -/
def noRelevantLit : Str := "NO_RELEVANT_INFO".data

/-- Pattern 2: `/NO\s*_\s*RELEVANT\s*_\s*INFO/gi`. -/
def pat2 : PM :=
  pseqs [pLitCI ("NO".data), pClassStar isJsWs, pLitCI ("_".data),
    pClassStar isJsWs, pLitCI ("RELEVANT".data), pClassStar isJsWs,
    pLitCI ("_".data), pClassStar isJsWs, pLitCI ("INFO".data)]

/-- Pattern 3: `/NO\s+RELEVANT\s+INFO/gi`. -/
def pat3 : PM :=
  pseqs [pLitCI ("NO".data), pClassPlus isJsWs, pLitCI ("RELEVANT".data),
    pClassPlus isJsWs, pLitCI ("INFO".data)]

/-- Pattern 5: `/\s*NO_RELEVANT_INFO\s*/gi`. -/
def pat5 : PM :=
  pseqs [pClassStar isJsWs, pLitCI noRelevantLit, pClassStar isJsWs]

/-- Pattern 6: `/^NO_RELEVANT_INFO\s*/gim` — anchored at a line start. -/
def pat6 : Matcher := fun prev s =>
  match prev with
  | none => ((pseq (pLitCI noRelevantLit) (pClassStar isJsWs)) s).map Prod.fst
  | some c =>
    if isLineTerm c then
      ((pseq (pLitCI noRelevantLit) (pClassStar isJsWs)) s).map Prod.fst
    else none

/-- Pattern 7: `/\s*NO_RELEVANT_INFO$/gim` — anchored at a line end. -/
def pat7 : Matcher := fun _ s =>
  match (pseq (pClassStar isJsWs) (pLitCI noRelevantLit)) s with
  | some (n, []) => some n
  | some (n, c :: _) => if isLineTerm c then some n else none
  | none => none

/-- Pattern 8: `/[\(\（]?\s*NO_RELEVANT_INFO\s*[\)\）]?/gi`. -/
def pat8 : PM :=
  pseqs [pOptChar ['(', '（'], pClassStar isJsWs, pLitCI noRelevantLit,
    pClassStar isJsWs, pOptChar [')', '）']]

/-- Cleanup: `/\n{3,}/g` — a run of at least three newlines. -/
def patNl3 : Matcher := fun _ s =>
  let n := (s.takeWhile (fun c => c = '\n')).length
  if 3 ≤ n then some n else none

/-- Cleanup: `/[ \t]{2,}/g` — a run of at least two spaces or tabs. -/
def patSpTab2 : Matcher := fun _ s =>
  let n := (s.takeWhile (fun c => c = ' ' ∨ c = '\t')).length
  if 2 ≤ n then some n else none

/-- Model of `sanitizeAnswer(answer)` (services/gemini.js): eight replacement passes
removing the marker and its variants, then whitespace normalization and a
trim.  (The leading type guard of the JS function is the identity on
strings.) -/
def sanitizeAnswer (answer : Str) : Str :=
  let c := jsReplace (toMatcher (pLitCI noRelevantLit)) [] answer
  let c := jsReplace (toMatcher pat2) [] c
  let c := jsReplace (toMatcher pat3) [] c
  let c := jsReplace (toMatcher (pLitCI ("NO-RELEVANT-INFO".data))) [] c
  let c := jsReplace (toMatcher pat5) [] c
  let c := jsReplace pat6 [] c
  let c := jsReplace pat7 [] c
  let c := jsReplace (toMatcher pat8) [] c
  let c := jsReplace patNl3 ("\n\n".data) c
  let c := jsReplace patSpTab2 [' '] c
  jsTrim c

example : sanitizeAnswer ("abc NO_RELEVANT_INFO def".data) = "abc def".data := by
  decide

example : sanitizeAnswer ("no relevant info嗯".data) = "嗯".data := by decide

example :
    sanitizeAnswer ("answerNO_RELEVANT_INFOanswer".data)
      = "answeranswer".data := by decide

/-- The character class `[\s_-]` of the stream detection regex. -/
def markerClassChar (c : Char) : Bool := isJsWs c ∨ c = '_' ∨ c = '-'

/-- The stream detection pattern `/NO[\s_-]*RELEVANT[\s_-]*INFO/i`. -/
def markerPat : PM :=
  pseqs [pLitCI ("NO".data), pClassStar markerClassChar,
    pLitCI ("RELEVANT".data), pClassStar markerClassChar,
    pLitCI ("INFO".data)]

/-- Model of `checkWindow.match(/NO[\s_-]*RELEVANT[\s_-]*INFO/i)` as a Boolean test:
does the pattern match anywhere in the window? -/
def markerTest : Str → Bool
  | [] => false
  | c :: rest => (markerPat (c :: rest)).isSome ∨ markerTest rest

example : markerTest ("xxNO_ RELEVANT-INFOyy".data) = true := by decide

/-- The loop state of `generateAnswerStream`: the accumulated full text and
the trailing lookback buffer. -/
structure StreamState where
  fullText : Str
  buffer : Str
deriving DecidableEq

/-- Model of `s.slice(-50)`: the last 50 characters (the whole string when
shorter). -/
def last50 (s : Str) : Str := s.drop (s.length - 50)

/-- One iteration of the `for await` loop of `generateAnswerStream` on a
received `chunkText`: returns the new state and the list (empty or
singleton) of strings forwarded to `onChunk`. -/
def streamStep (st : StreamState) (chunk : Str) : StreamState × List Str :=
  if chunk.isEmpty then (st, [])
  else
    let buffer := st.buffer ++ chunk
    let fullText := st.fullText ++ chunk
    let checkWindow := last50 buffer
    if markerTest checkWindow then
      let fullText2 := sanitizeAnswer fullText
      let cleaned := sanitizeAnswer chunk
      (⟨fullText2, last50 fullText2⟩, if cleaned.isEmpty then [] else [cleaned])
    else
      let cleaned := sanitizeAnswer chunk
      let buffer2 := if buffer.length > 50 then last50 buffer else buffer
      (⟨fullText, buffer2⟩, if cleaned.isEmpty then [] else [cleaned])

/-- Run `generateAnswerStream` over a whole increment sequence: result is
the final (sanitized) return value and everything forwarded to `onChunk`,
in order. -/
def streamRun (incs : List Str) : Str × List Str :=
  let res := incs.foldl
    (fun (acc : StreamState × List Str) inc =>
      let step := streamStep acc.1 inc
      (step.1, acc.2 ++ step.2))
    (⟨[], []⟩, [])
  (sanitizeAnswer res.1.fullText, res.2)

/-- The concatenation of everything the streaming path forwards to the
consumer. -/
def forwardedText (incs : List Str) : Str := (streamRun incs).2.flatten

/-- C1.  Streaming sanitization is incomplete: when
`"answer" + NO_RELEVANT_INFO + "answer"` arrives in length-1 increments,
every fragment of the marker is forwarded verbatim (each one-character
increment is individually clean, and already-forwarded text cannot be
retracted when the lookback window later detects the marker), so the
concatenated forwarded output equals the raw input and still contains the
marker — even though a single batch call of `sanitizeAnswer` on the same
text yields exactly `"answeranswer"`. -/
theorem stream_sanitizer_forwards_marker_cex :
    forwardedText (("answerNO_RELEVANT_INFOanswer".data).map (fun c => [c]))
      = "answerNO_RELEVANT_INFOanswer".data ∧
    markerTest (forwardedText
        (("answerNO_RELEVANT_INFOanswer".data).map (fun c => [c]))) = true ∧
    sanitizeAnswer ("answerNO_RELEVANT_INFOanswer".data)
      = "answeranswer".data := by decide

/-!
## Retry with backoff — `retryWithBackoff` (utils/rateLimiter.js)
-/

/-- A JS `Error` as inspected by the retry logic: the `message` and the
numeric fields read by `error.code || error.statusCode || error.status`
(string-valued `code`s never compare `=== 429`, so only numbers are
relevant). -/
structure JsError where
  message : Option Str
  code : Option Nat
  statusCode : Option Nat
  status : Option Nat
deriving DecidableEq

/-- JS truthiness of the numeric error fields (`0` is falsy). -/
def jsTruthyNat : Option Nat → Bool
  | some n => n ≠ 0
  | none => false

/-- Model of `error.code || error.statusCode || error.status`. -/
def firstTruthyCode (e : JsError) : Option Nat :=
  if jsTruthyNat e.code then e.code
  else if jsTruthyNat e.statusCode then e.statusCode
  else if jsTruthyNat e.status then e.status
  else none

/-- Model of `error.message?.toLowerCase() || ''`. -/
def errMessageLower (e : JsError) : Str := lowerStr (e.message.getD [])

/-- The rate-limit classification shared verbatim by `retryWithBackoff`
(rateLimiter.js) and the catch block of `generateAnswer` (gemini.js):
status 429, or a message mentioning a rate limit. -/
def isRateLimitSignal (e : JsError) : Bool :=
  firstTruthyCode e = some 429 ∨
  containsSub ("rate limit".data) (errMessageLower e) ∨
  containsSub ("too many requests".data) (errMessageLower e) ∨
  containsSub ("resource exhausted".data) (errMessageLower e)

/-- One attempt of the wrapped API call (the call is mediated by
`waitForSlot`/`releaseSlot`, which never throw; a successful payload is
abstracted to a number). -/
inductive CallResult where
  | success (v : Nat)
  | failure (e : JsError)
deriving DecidableEq

/-- The retry loop of `retryWithBackoff` from a given attempt on.
`remaining = maxRetries - attempt`, so `remaining = 0` is exactly the JS
condition `attempt >= maxRetries`: on failure there the error is thrown
regardless of its class.  Otherwise a rate-limit failure sleeps
`min(initialDelay * backoffMultiplier ^ attempt, maxDelay)` and retries,
and every other failure is rethrown unchanged.  Returns the outcome and
the list of computed sleep delays in order. -/
def retryFrom (op : Nat → CallResult)
    (initialDelay maxDelay backoffMultiplier : Nat) :
    Nat → Nat → Except JsError Nat × List Nat
  | attempt, 0 =>
    match op attempt with
    | .success v => (.ok v, [])
    | .failure e => (.error e, [])
  | attempt, remaining + 1 =>
    match op attempt with
    | .success v => (.ok v, [])
    | .failure e =>
      if isRateLimitSignal e then
        let d := min (initialDelay * backoffMultiplier ^ attempt) maxDelay
        let r := retryFrom op initialDelay maxDelay backoffMultiplier
          (attempt + 1) remaining
        (r.1, d :: r.2)
      else (.error e, [])

/-- Model of `retryWithBackoff(apiCall, options)` with the defaults of this module. -/
def retryWithBackoff (op : Nat → CallResult) (maxRetries : Nat := 5)
    (initialDelay : Nat := 3000) (maxDelay : Nat := 30000)
    (backoffMultiplier : Nat := 2) : Except JsError Nat × List Nat :=
  retryFrom op initialDelay maxDelay backoffMultiplier 0 maxRetries

/-- Each sleep of the retry loop: the i-th recorded delay (counting from the
given starting attempt) is `min(initialDelay * mult ^ attempt, maxDelay)`
for the corresponding attempt number. -/
theorem retryFrom_delay_get (op : Nat → CallResult) (init maxD mult : Nat) :
    ∀ remaining attempt i d,
      ((retryFrom op init maxD mult attempt remaining).2)[i]? = some d →
      d = min (init * mult ^ (attempt + i)) maxD := by
  intro remaining
  induction remaining with
  | zero =>
    intro attempt i d h
    cases hop : op attempt <;> simp [retryFrom, hop] at h
  | succ r ih =>
    intro attempt i d h
    cases hop : op attempt with
    | success v => simp [retryFrom, hop] at h
    | failure e =>
      by_cases hrl : isRateLimitSignal e
      · simp only [retryFrom, hop, hrl, if_true] at h
        cases i with
        | zero =>
          simp only [List.getElem?_cons_zero, Option.some.injEq] at h
          rw [Nat.add_zero]
          exact h.symm
        | succ j =>
          simp only [List.getElem?_cons_succ] at h
          have hrec := ih (attempt + 1) j d h
          have hx : attempt + 1 + j = attempt + (j + 1) := by omega
          rw [hrec, hx]
      · simp [retryFrom, hop, hrl] at h

/-- If the attempts before `a` all fail with rate-limit signals and attempt
`a` fails with a non-rate-limit error, the loop stops at `a`: the error is
propagated unchanged and exactly `a - attempt` sleeps happened. -/
theorem retryFrom_stop (op : Nat → CallResult) (init maxD mult : Nat) :
    ∀ remaining attempt a e, attempt ≤ a → a ≤ attempt + remaining →
      (∀ k, attempt ≤ k → k < a →
        ∃ ek, op k = .failure ek ∧ isRateLimitSignal ek = true) →
      op a = .failure e → isRateLimitSignal e = false →
      (retryFrom op init maxD mult attempt remaining).1 = .error e ∧
      (retryFrom op init maxD mult attempt remaining).2.length = a - attempt := by
  intro remaining
  induction remaining with
  | zero =>
    intro attempt a e h1 h2 _ hop hrl
    have : a = attempt := by omega
    subst this
    simp [retryFrom, hop]
  | succ r ih =>
    intro attempt a e h1 h2 hpre hop hrl
    by_cases heq : a = attempt
    · subst heq
      simp [retryFrom, hop, hrl]
    · have hlt : attempt < a := by omega
      obtain ⟨ek, hk, hkrl⟩ := hpre attempt (Nat.le_refl _) hlt
      have hrec := ih (attempt + 1) a e (by omega) (by omega)
        (fun k hk1 hk2 => hpre k (by omega) hk2) hop hrl
      simp only [retryFrom, hk, hkrl, if_true]
      refine ⟨hrec.1, ?_⟩
      simp only [List.length_cons, hrec.2]
      omega

/-- If every attempt up to the horizon fails with a rate-limit signal, the
loop exhausts its retries: the last error is propagated unchanged after the
full sequence of backoff sleeps. -/
theorem retryFrom_exhaust (op : Nat → CallResult) (init maxD mult : Nat) :
    ∀ remaining attempt (es : Nat → JsError),
      (∀ a, attempt ≤ a → a ≤ attempt + remaining →
        op a = .failure (es a) ∧ isRateLimitSignal (es a) = true) →
      retryFrom op init maxD mult attempt remaining
        = (.error (es (attempt + remaining)),
           (List.range remaining).map
             fun k => min (init * mult ^ (attempt + k)) maxD) := by
  intro remaining
  induction remaining with
  | zero =>
    intro attempt es h
    have := h attempt (Nat.le_refl _) (by omega)
    simp [retryFrom, this.1]
  | succ r ih =>
    intro attempt es h
    have h0 := h attempt (Nat.le_refl _) (by omega)
    have hrec := ih (attempt + 1) es
      (fun a ha1 ha2 => h a (by omega) (by omega))
    simp only [retryFrom, h0.1, h0.2, if_true, hrec]
    rw [Prod.mk.injEq]
    constructor
    · have hx : attempt + 1 + r = attempt + (r + 1) := by omega
      rw [hx]
    · rw [List.range_succ_eq_map, List.map_cons, List.map_map]
      rw [Nat.add_zero]
      congr 1
      apply List.map_congr_left
      intro k _
      simp only [Function.comp]
      have hx : attempt + 1 + k = attempt + (k + 1) := by omega
      rw [hx]

/-- C5.  The retry contract of `retryWithBackoff`: (1) the i-th computed
sleep delay is `min(initialDelay × multiplier ^ i, maxDelay)` — the delay of
attempt `i`; (2) a failure not classified as a rate-limit signal is never
retried: if the attempts before `a` were rate-limited and attempt
`a ≤ maxRetries` fails with a non-rate-limit error, that error is propagated
unchanged with no further sleep (exactly `a` sleeps happened in total); (3)
if all `maxRetries + 1` attempts fail with rate-limit signals, the final
error is propagated unchanged after the full backoff sequence. -/
theorem retryWithBackoff_contract (op : Nat → CallResult)
    (maxRetries initialDelay maxDelay mult : Nat) :
    (∀ i d,
      ((retryWithBackoff op maxRetries initialDelay maxDelay mult).2)[i]?
          = some d →
        d = min (initialDelay * mult ^ i) maxDelay) ∧
    (∀ a e, a ≤ maxRetries →
      (∀ k, k < a →
        ∃ ek, op k = .failure ek ∧ isRateLimitSignal ek = true) →
      op a = .failure e → isRateLimitSignal e = false →
      (retryWithBackoff op maxRetries initialDelay maxDelay mult).1 = .error e ∧
      (retryWithBackoff op maxRetries initialDelay maxDelay mult).2.length = a) ∧
    (∀ es : Nat → JsError,
      (∀ a, a ≤ maxRetries →
        op a = .failure (es a) ∧ isRateLimitSignal (es a) = true) →
      retryWithBackoff op maxRetries initialDelay maxDelay mult
        = (.error (es maxRetries),
           (List.range maxRetries).map
             fun k => min (initialDelay * mult ^ k) maxDelay)) := by
  refine ⟨?_, ?_, ?_⟩
  · intro i d h
    have := retryFrom_delay_get op initialDelay maxDelay mult maxRetries 0 i d h
    simpa using this
  · intro a e ha hpre hop hrl
    have := retryFrom_stop op initialDelay maxDelay mult maxRetries 0 a e
      (Nat.zero_le _) (by omega) (fun k _ hk2 => hpre k hk2) hop hrl
    simpa using this
  · intro es h
    have := retryFrom_exhaust op initialDelay maxDelay mult maxRetries 0 es
      (fun a _ ha2 => h a (by omega))
    simpa using this

/-- A concrete rate-limit error. -/
def rlErrExample : JsError := ⟨some ("rate limit".data), none, none, none⟩

/-- Witness for `retryWithBackoff_contract`: an operation that always fails
with a rate-limit signal, `maxRetries = 2`, `initialDelay = 10`,
`maxDelay = 1000`, `multiplier = 3` gives delays `[10, 30]` and propagates
the final error. -/
theorem retryWithBackoff_contract_witness :
    retryWithBackoff (fun _ => .failure rlErrExample) 2 10 1000 3
      = (.error rlErrExample, [10, 30]) := by
  have h := (retryWithBackoff_contract (fun _ => .failure rlErrExample)
      2 10 1000 3).2.2 (fun _ => rlErrExample)
      (fun a _ => ⟨rfl, (by decide : isRateLimitSignal rlErrExample = true)⟩)
  exact h.trans rfl

/-!
## Request gate — `waitForSlot`/`releaseSlot` (utils/rateLimiter.js)

The JS event loop runs each code segment between `await`s atomically; an
interleaving of concurrent `waitForSlot` calls is a schedule of such
segments.  Timers fire no earlier than their deadline, so stepping a
sleeping task advances the clock to (at least) its wake time.
-/

/-- Constant `MAX_CONCURRENT_REQUESTS` (rateLimiter.js). -/
def MAX_CONCURRENT_REQUESTS : Nat := 1

/-- Constant `MIN_REQUEST_INTERVAL` in milliseconds (rateLimiter.js). -/
def MIN_REQUEST_INTERVAL : Nat := 2000

/-- Program counter of one `waitForSlot` caller, one value per suspension
point of the JS function. -/
inductive WaiterPc where
  | start
  | whileSleep (wake : Nat)
  | intervalSleep (wake : Nat)
  | running
  | done
deriving DecidableEq

/-- The shared module state plus a logical clock (`Date.now()`), and the log
of slot grants `(taskId, grantTime)`. -/
structure GateState where
  activeRequests : Nat
  lastRequestTime : Nat
  now : Nat
  grants : List (Nat × Nat)
deriving DecidableEq

/-- The synchronous segment of `waitForSlot` that starts at the `while`
check: either suspend in the polling sleep, suspend in the interval sleep,
or — atomically — take the slot.  Note that after the interval sleep the JS
code does not re-run this check. -/
def acquireCheck (tid : Nat) (st : GateState) : GateState × WaiterPc :=
  if MAX_CONCURRENT_REQUESTS ≤ st.activeRequests then
    (st, .whileSleep (st.now + 100))
  else
    let elapsed := st.now - st.lastRequestTime
    if elapsed < MIN_REQUEST_INTERVAL then
      (st, .intervalSleep (st.now + (MIN_REQUEST_INTERVAL - elapsed)))
    else
      ({st with activeRequests := st.activeRequests + 1,
                lastRequestTime := st.now,
                grants := st.grants ++ [(tid, st.now)]}, .running)

/-- Run the atomic segment of task `tid` at its current suspension point.
`running → done` is `releaseSlot()` (`Math.max(0, active - 1)` is `Nat`
subtraction). -/
def stepWaiter (tid : Nat) (st : GateState) : WaiterPc → GateState × WaiterPc
  | .start => acquireCheck tid st
  | .whileSleep w => acquireCheck tid {st with now := max st.now w}
  | .intervalSleep w =>
    let st2 := {st with now := max st.now w}
    ({st2 with activeRequests := st2.activeRequests + 1,
               lastRequestTime := st2.now,
               grants := st2.grants ++ [(tid, st2.now)]}, .running)
  | .running => ({st with activeRequests := st.activeRequests - 1}, .done)
  | .done => (st, .done)

/-- A system of concurrent `waitForSlot` callers. -/
structure GateSys where
  gate : GateState
  tasks : List WaiterPc
deriving DecidableEq

/-- Scheduler step: run the next atomic segment of task `i`. -/
def stepSys (s : GateSys) (i : Nat) : GateSys :=
  match s.tasks[i]? with
  | some pc =>
    let r := stepWaiter i s.gate pc
    ⟨r.1, s.tasks.set i r.2⟩
  | none => s

/-- Run a schedule of task indexes. -/
def runSched (s : GateSys) (sched : List Nat) : GateSys :=
  sched.foldl stepSys s

/-- Three callers at module state `activeRequests = 0`,
`lastRequestTime = 0`, with the clock at 10000 ms. -/
def gateInit : GateSys := ⟨⟨0, 0, 10000, []⟩, [.start, .start, .start]⟩

/-- C6.  `waitForSlot` does not guarantee mutual exclusion or 2000 ms
spacing: task 0 is granted the slot at t = 10000 and releases it; tasks 1
and 2 then both pass the `while` check (slot free), both find the interval
not yet elapsed, both suspend in the interval sleep, and — since the code
does not re-check after that sleep — both take the slot at t = 12000.  Two
callers hold the slot at the same instant (`activeRequests = 2 >
MAX_CONCURRENT_REQUESTS`) and the two grants are 0 ms apart, far below
`MIN_REQUEST_INTERVAL`. -/
theorem gate_mutual_exclusion_race_cex :
    (runSched gateInit [0, 0, 1, 2, 1, 2]).gate.activeRequests = 2 ∧
    (runSched gateInit [0, 0, 1, 2, 1, 2]).tasks
      = [.done, .running, .running] ∧
    (runSched gateInit [0, 0, 1, 2, 1, 2]).gate.grants
      = [(0, 10000), (1, 12000), (2, 12000)] := by decide

/-!
## Keyword-rule fallback — `generateFallbackAnswer` (services/ragService.js)
-/

/-- The keyword → canned-answer table, in source (insertion) order. -/
def keywordMap : List (Str × Str) :=
  [("退貨".data,
    "根據我們的退貨政策，商品收到後 7 天內可申請退貨。商品需保持原狀、未使用過，運費由買家負擔。退款將在收到商品後 3-5 個工作天內處理。".data),
   ("運送".data,
    "運送時間如下：台灣本島 3-5 個工作天，離島地區 5-7 個工作天，海外地區 7-14 個工作天，超商取貨 2-3 個工作天。".data),
   ("付款".data,
    "我們接受以下付款方式：信用卡（Visa、MasterCard、JCB）、ATM 轉帳、超商代碼繳費、貨到付款（需加收手續費 NT$ 30）。".data),
   ("聯絡".data,
    "聯絡資訊：客服電話 0800-123-456，服務時間週一至週五 9:00-18:00，電子郵件 service@example.com，線上客服 24 小時服務。".data),
   ("服務時間".data,
    "服務時間為週一至週五 9:00-18:00，線上客服提供 24 小時服務。".data),
   ("營業時間".data,
    "服務時間為週一至週五 9:00-18:00，線上客服提供 24 小時服務。".data),
   ("會員".data,
    "會員權益：新會員註冊即享 100 元購物金，生日當月享 9 折優惠，累積消費滿 5000 元升級為 VIP 會員，VIP 會員享有免運費優惠。".data),
   ("電話".data,
    "客服電話：0800-123-456，服務時間週一至週五 9:00-18:00。".data),
   ("email".data,
    "電子郵件：service@example.com".data),
   ("郵件".data,
    "電子郵件：service@example.com".data)]

/-- The last-resort holding message (holding message plus contact line). -/
def fallbackDefaultMsg : Str :=
  "不好意思，您的問題我們需要一些時間確認後再回覆您，請您稍等。如有緊急問題，請聯繫客服：0800-123-456。".data

/-- Matcher for the literal separator of `contextText.split('\n')`. -/
def nlMatch : Str → Option Nat
  | c :: _ => if c = '\n' then some 1 else none
  | [] => none

/-- Model of `contextText.split('\n')`. -/
def splitLines (s : Str) : List Str := jsSplit nlMatch s

/-- Model of `bestMatch.trim().replace(/^[-•]\s*/, '')`: a single anchored replace
stripping one leading bullet and the whitespace after it. -/
def stripBullet (s : Str) : Str :=
  match s with
  | c :: rest =>
    if c = '-' ∨ c = '•' then rest.dropWhile isJsWs else c :: rest
  | [] => []

/-- The line-scanning loop: keep the first line that strictly improves the
best score, requiring a positive score. -/
def bestLine (query : Str) (lines : List Str) : Str × Nat :=
  lines.foldl
    (fun acc line =>
      let score := calculateRelevanceScore query line
      if acc.2 < score ∧ 0 < score then (line, score) else acc)
    ([], 0)

/-- Model of `generateFallbackAnswer(query, contextText)`: first match in the keyword
table wins; otherwise the best-scoring non-blank context line, trimmed,
bullet-stripped and truncated to 200 characters; otherwise the fixed holding
message with the contact line. -/
def generateFallbackAnswer (query context : Str) : Str :=
  let queryLower := lowerStr query
  match keywordMap.find? (fun kv => containsSub kv.1 queryLower) with
  | some kv => kv.2
  | none =>
    if context.isEmpty then fallbackDefaultMsg
    else
      let lines := (splitLines context).filter fun l => (jsTrim l).length > 0
      let best := bestLine query lines
      if best.1.isEmpty then fallbackDefaultMsg
      else (stripBullet (jsTrim best.1)).take 200

example :
    generateFallbackAnswer ("退貨".data) [] =
      "根據我們的退貨政策，商品收到後 7 天內可申請退貨。商品需保持原狀、未使用過，運費由買家負擔。退款將在收到商品後 3-5 個工作天內處理。".data := by
  decide

example :
    generateFallbackAnswer ("hat".data) ("- a hat line\nzzz".data)
      = "a hat line".data := by decide

/-!
## Generation orchestrator — `processQuery` (services/ragService.js) and the
error classification of `generateAnswer` (services/gemini.js)

The remote calls themselves are oracles: `expandedQuery` is whatever the
query expansion produced (the original query when it failed), and `gen` is
the outcome of `generateAnswer` on the assembled context — either an answer
or the classified error message it threw.
-/

/-- Outcome of `generateAnswer` as observed by `processQuery`: a resolved
answer or the `message` of the thrown error. -/
inductive GenOutcome where
  | ok (answer : Str)
  | err (message : Str)
deriving DecidableEq

/-- The observable result of `processQuery`, plus bookkeeping of which
collaborators the taken path invoked. -/
structure ProcResult where
  answer : Str
  mode : Str
  expandAttempted : Bool
  generateAttempted : Bool
  usedKeywordFallback : Bool
deriving DecidableEq

/-- The fixed holding message of the empty-knowledge-base branch. -/
def noKbMsg : Str :=
  "不好意思，您的問題我們需要一些時間確認後再回覆您，請您稍等。".data

/-- The configuration-error answer of the `API_KEY_INVALID` branch. -/
def configErrorMsg : Str :=
  "系統設定錯誤，請聯繫技術支援。如有緊急問題，請聯繫客服：0800-123-456。".data

/-- The generic catch-all error answer. -/
def genericErrorMsg : Str :=
  "不好意思，目前 AI 服務暫時無法使用，請稍後再試。如有緊急問題，請直接聯繫客服：0800-123-456。".data

/-- The note appended to the keyword fallback on the rate-limit path. -/
def rateLimitNote : Str :=
  "\n\n（註：目前 AI 服務使用量較高，以上為基於知識庫的快速回答）".data

/-- Decimal rendering for template literals. -/
def natToStr (n : Nat) : Str := (Nat.repr n).data

/-- The precise-retrieval context: numbered blocks joined by an explicit
separator, `[區塊 ${chunk.index + 1}]\n${chunk.text}` with
`'\n\n---\n\n'`. -/
def assembleContext (relevant : List ScoredChunk) : Str :=
  List.intercalate ("\n\n---\n\n".data)
    (relevant.map fun c =>
      "[區塊 ".data ++ natToStr (c.index + 1) ++ "]\n".data ++ c.text)

/-- Model of `processQuery(query)` (services/ragService.js): empty knowledge base →
fixed holding message; otherwise retrieve with the expanded query
(`topK = 5`), choose full-corpus or precise context, and dispatch on the
generation outcome exactly as the catch chain does. -/
def processQuery (query : Str) (textChunks : List Chunk) (originalText : Str)
    (expandedQuery : Str) (gen : GenOutcome) : ProcResult :=
  if textChunks.isEmpty then
    ⟨noKbMsg, "no_knowledge_base".data, false, false, false⟩
  else
    let relevant := retrieveRelevantChunks expandedQuery textChunks 5
    let useFull := relevant.isEmpty
    let contextText := if useFull then originalText else assembleContext relevant
    match gen with
    | .ok answer =>
      ⟨answer, if useFull then "full_rag".data else "rag".data,
        true, true, false⟩
    | .err m =>
      if m = "SAFETY_FILTER_BLOCKED".data then
        ⟨generateFallbackAnswer query contextText, "safety_fallback".data,
          true, true, true⟩
      else if m = "EMPTY_RESPONSE".data then
        ⟨generateFallbackAnswer query contextText,
          "empty_response_fallback".data, true, true, true⟩
      else if m = "RATE_LIMIT_EXCEEDED".data then
        ⟨generateFallbackAnswer query contextText ++ rateLimitNote,
          "rate_limit_fallback".data, true, true, true⟩
      else if m = "API_KEY_INVALID".data then
        ⟨configErrorMsg, "config_error".data, true, true, false⟩
      else if m = "AI_SERVICE_UNAVAILABLE".data ∨
          containsSub ("Ollama 也發生錯誤".data) m then
        ⟨generateFallbackAnswer query contextText, "fallback".data,
          true, true, true⟩
      else
        ⟨genericErrorMsg, "error".data, true, true, false⟩

/-- The catch block of `generateAnswer` (services/gemini.js, after
`retryWithBackoff` rethrew): classify the provider error.  Returns the
outcome `processQuery` observes and whether the local Ollama fallback was
invoked (only the quota branch calls it). -/
def geminiClassify (e : JsError) (ollamaResult : Except Str Str) :
    GenOutcome × Bool :=
  let msg := errMessageLower e
  if isRateLimitSignal e then
    (.err ("RATE_LIMIT_EXCEEDED".data), false)
  else if containsSub ("quota exceeded".data) msg ∨
      (containsSub ("quota".data) msg ∧ ¬ containsSub ("rate".data) msg) then
    (match ollamaResult with
     | .ok t => .ok t
     | .error _ => .err ("AI_SERVICE_UNAVAILABLE".data), true)
  else if containsSub ("api key".data) msg ∨
      containsSub ("authentication".data) msg ∨
      containsSub ("401".data) msg ∨ firstTruthyCode e = some 401 then
    (.err ("API_KEY_INVALID".data), false)
  else
    (.err ("Gemini API 錯誤: ".data ++
      (let om := e.message.getD []
       if om.isEmpty then "未知錯誤".data else om) ++
      " (錯誤碼: ".data ++
      (match firstTruthyCode e with
       | some n => natToStr n
       | none => "N/A".data) ++ ")".data), false)

/-- C8.  With an empty chunk sequence `processQuery` returns the fixed
holding message with mode `no_knowledge_base`, for every query and every
oracle, and the taken path calls neither query expansion nor generation nor
any fallback. -/
theorem empty_kb_holding_message (query originalText expandedQuery : Str)
    (gen : GenOutcome) :
    processQuery query [] originalText expandedQuery gen
      = ⟨noKbMsg, "no_knowledge_base".data, false, false, false⟩ := rfl

/-- C3.  A query whose only token occurs in no chunk does NOT produce zero
scored chunks: the `indexOf < 100` bonus of the scorer fires on absent tokens, so
the single chunk "abcd" scores 3 against the matchless query "zz", precise
retrieval returns it, and `processQuery` reports the precise mode `rag`
instead of passing the whole corpus with mode `full_rag`. -/
theorem no_match_query_not_full_corpus_cex :
    retrieveRelevantChunks ("zz".data) [⟨"abcd".data, 0⟩] 5
      = [⟨"abcd".data, 0, 3⟩] ∧
    processQuery ("zz".data) [⟨"abcd".data, 0⟩] ("abcd".data) ("zz".data)
        (.ok ("hi".data))
      = ⟨"hi".data, "rag".data, true, true, false⟩ := by decide

/-- C7.  When every attempt fails with a rate-limit signal: the retry loop
propagates the final rate-limit error unchanged; `generateAnswer` classifies
it as `RATE_LIMIT_EXCEEDED` without invoking the local Ollama fallback
(whatever Ollama would have answered); and `processQuery` recovers locally,
returning the keyword-rule fallback answer plus the explanatory note — a
non-empty answer — with mode `rate_limit_fallback`, instead of any
exception. -/
theorem rate_limit_exhaustion_recovery
    (query : Str) (textChunks : List Chunk) (originalText expandedQuery : Str)
    (op : Nat → CallResult) (maxRetries initialDelay maxDelay mult : Nat)
    (es : Nat → JsError) (ollamaResult : Except Str Str)
    (hchunks : textChunks ≠ [])
    (hop : ∀ a, a ≤ maxRetries →
      op a = .failure (es a) ∧ isRateLimitSignal (es a) = true) :
    (retryWithBackoff op maxRetries initialDelay maxDelay mult).1
        = .error (es maxRetries) ∧
    geminiClassify (es maxRetries) ollamaResult
        = (.err ("RATE_LIMIT_EXCEEDED".data), false) ∧
    (processQuery query textChunks originalText expandedQuery
        (.err ("RATE_LIMIT_EXCEEDED".data))).mode = "rate_limit_fallback".data ∧
    (processQuery query textChunks originalText expandedQuery
        (.err ("RATE_LIMIT_EXCEEDED".data))).answer
      = generateFallbackAnswer query
          (if (retrieveRelevantChunks expandedQuery textChunks 5).isEmpty
           then originalText
           else assembleContext (retrieveRelevantChunks expandedQuery
             textChunks 5)) ++ rateLimitNote ∧
    (processQuery query textChunks originalText expandedQuery
        (.err ("RATE_LIMIT_EXCEEDED".data))).answer ≠ [] ∧
    (processQuery query textChunks originalText expandedQuery
        (.err ("RATE_LIMIT_EXCEEDED".data))).usedKeywordFallback = true := by
  obtain ⟨c, cs, rfl⟩ : ∃ c cs, textChunks = c :: cs := by
    cases textChunks with
    | nil => exact absurd rfl hchunks
    | cons c cs => exact ⟨c, cs, rfl⟩
  have hret : retryWithBackoff op maxRetries initialDelay maxDelay mult
      = (.error (es maxRetries),
         (List.range maxRetries).map
           fun k => min (initialDelay * mult ^ k) maxDelay) := by
    have := retryFrom_exhaust op initialDelay maxDelay mult maxRetries 0 es
      (fun a _ ha2 => hop a (by omega))
    simpa using this
  refine ⟨by rw [hret], ?_, ?_, ?_, ?_, ?_⟩
  · have hrl := (hop maxRetries (Nat.le_refl _)).2
    simp [geminiClassify, hrl]
  · rfl
  · rfl
  · have hnote : rateLimitNote ≠ [] := by decide
    intro h
    exact hnote (List.append_eq_nil.mp h).2
  · rfl

/-- Witness for `rate_limit_exhaustion_recovery` at concrete inputs. -/
theorem rate_limit_exhaustion_recovery_witness :
    (processQuery ("hello".data) [⟨"退貨政策：7天內可退貨".data, 0⟩]
        ("退貨政策：7天內可退貨".data) ("hello".data)
        (.err ("RATE_LIMIT_EXCEEDED".data))).mode
      = "rate_limit_fallback".data ∧
    (processQuery ("hello".data) [⟨"退貨政策：7天內可退貨".data, 0⟩]
        ("退貨政策：7天內可退貨".data) ("hello".data)
        (.err ("RATE_LIMIT_EXCEEDED".data))).answer ≠ [] := by
  have h := rate_limit_exhaustion_recovery ("hello".data)
    [⟨"退貨政策：7天內可退貨".data, 0⟩] ("退貨政策：7天內可退貨".data)
    ("hello".data) (fun _ => .failure rlErrExample) 1 5 100 2
    (fun _ => rlErrExample) (.error ("x".data))
    (by decide)
    (fun a _ => ⟨rfl, (by decide : isRateLimitSignal rlErrExample = true)⟩)
  exact ⟨h.2.2.1, h.2.2.2.2.1⟩

/-!
## Knowledge-base replace — `updateKnowledgeBase` (services/ragService.js)
-/

/-- The module-level in-memory store: `originalText` and `textChunks`. -/
structure RagStore where
  originalText : Str
  textChunks : List Chunk
deriving DecidableEq

/-- Model of `updateKnowledgeBase(text)`: write the file first; only on success
replace the in-memory text and chunks and report the chunk count; a write
failure is rethrown (wrapped) and the store is untouched.  The outcome of
`fs.writeFile` is the oracle argument; the second component is the store
after the call. -/
def updateKnowledgeBase (writeResult : Except Str Unit) (text : Str)
    (st : RagStore) : Except Str Nat × RagStore :=
  match writeResult with
  | .ok _ => (.ok (chunkText text).length, ⟨text, chunkText text⟩)
  | .error em => (.error ("更新知識庫失敗: ".data ++ em), st)

/-- C10.  Replace atomicity: when the underlying write fails the call
returns the wrapped error and the in-memory store is exactly what it was;
when the write succeeds the raw text becomes the new text, the chunk
sequence becomes `chunkText` of that text (default chunking parameters), and
the reported `chunksCount` is the length of that sequence. -/
theorem updateKnowledgeBase_atomic (text : Str) (st : RagStore) :
    (∀ em, updateKnowledgeBase (.error em) text st
        = (.error ("更新知識庫失敗: ".data ++ em), st)) ∧
    updateKnowledgeBase (.ok ()) text st
      = (.ok (chunkText text).length, ⟨text, chunkText text⟩) :=
  ⟨fun _ => rfl, rfl⟩

end Chatbot
